import Mathlib

/-!
Shallow embedding of the Symptom Surveillance Engine of `src/Tracker.py`:
the CSV event store (`load_data`, `log_entry`), the trend aggregator
(`analyze_trends`), the outbreak detector (`detect_outbreaks`), and the
submission-handling branch of `main` (lines 590-601).

Modelling conventions:
* a Python `datetime` is an integer count of seconds; `timedelta(days=k)`
  is `k * 86400` seconds; a calendar date (the parsed `date` column, always
  midnight) is an integer day number `d` whose datetime value is `d * 86400`;
  `datetime.date()` is flooring division by 86400;
* a pandas DataFrame of health reports is a `List Record` in file order,
  together with the fixed column set where the claim needs it (`Frame`);
* `pd.Series.value_counts` is modelled as: the distinct values in
  first-seen order, each paired with its number of occurrences, stably
  sorted by count descending (the observed pandas behaviour);
* the CSV read that can fail (`pd.read_csv` plus date parsing inside
  `try`/`except`) is modelled with an explicit `ReadResult` argument;
* Python string truthiness (`if area and symptoms`) is emptiness testing.
-/

namespace Tracker

/-- One row of `symptom_log.csv`, after `load_data` has parsed the two
date columns. Column set from `initialize_data_file` (lines 188-190). -/
structure Record where
  date : Int
  age_group : String
  area : String
  duration : String
  symptoms : String
  severity : Int
  timestamp : Int
  deriving DecidableEq

/-- An outbreak signal dict, as built by `detect_outbreaks` (lines 283-288). -/
structure Outbreak where
  area : String
  cases : Nat
  symptom : String
  days : Int
  deriving DecidableEq

/-- Does `hay` start with `needle`? Building block for Python's `in`. -/
def leadMatch : List Char → List Char → Bool
  | [], _ => true
  | _ :: _, [] => false
  | a :: as, b :: bs => a == b && leadMatch as bs

/-- Python `needle in hay` on strings, as a scan over character lists. -/
def containsSub (needle : List Char) : List Char → Bool
  | [] => leadMatch needle []
  | b :: bs => leadMatch needle (b :: bs) || containsSub needle bs

/-- Python `str.lower()` on the ASCII symptom data, as a character list. -/
def strLower (s : String) : List Char := s.toList.map Char.toLower

/-- Python `'fever' in str(x).lower()` (line 279). -/
def feverMatch (s : String) : Bool := containsSub "fever".toList (strLower s)

/-- Python `symptom.lower() in str(row['symptoms']).lower()` (line 256). -/
def symContains (needle hay : String) : Bool := containsSub (strLower needle) (strLower hay)

/-- Python `[s.strip() for s in str(symptoms_str).split(',')]` (line 238). -/
def splitSymptoms (s : String) : List String := (s.splitOn ",").map (fun t => t.trim)

/-- Python `', '.join(symptoms)` (line 213). -/
def joinComma (l : List String) : String := String.intercalate ", " l

/-- The window test `row.date >= now - timedelta(days)` used by the filters
at lines 232-233 and 271-272. -/
def inWindow (now days : Int) (r : Record) : Bool :=
  decide (now - days * 86400 ≤ r.date * 86400)

/-- `df[df['date'] >= now - timedelta(days)]`. -/
def recentOf (now days : Int) (df : List Record) : List Record :=
  df.filter (inWindow now days)

/-- `pandas` unique / hashtable key order: distinct values, first
occurrence first, skipping values already seen. -/
def dedupFirstAux (seen : List String) : List String → List String
  | [] => []
  | x :: xs => if x ∈ seen then dedupFirstAux seen xs else x :: dedupFirstAux (x :: seen) xs

/-- `Series.unique()` (line 274) and the key order of `value_counts`. -/
def dedupFirst (l : List String) : List String := dedupFirstAux [] l

/-- Stable insertion of a (value, count) pair into a count-descending list:
the new pair goes in front of the first entry whose count is at most its
own, hence behind every earlier-seen entry of equal count. -/
def insertDesc (p : String × Nat) : List (String × Nat) → List (String × Nat)
  | [] => [p]
  | q :: qs => if q.2 ≤ p.2 then p :: q :: qs else q :: insertDesc p qs

/-- Stable sort by count, descending. -/
def sortDesc (l : List (String × Nat)) : List (String × Nat) := l.foldr insertDesc []

/-- `pd.Series(l).value_counts()` (lines 241, 244): occurrence counts of
the distinct values, ordered by count descending, ties kept in first-seen
order. -/
def value_counts (l : List String) : List (String × Nat) :=
  sortDesc ((dedupFirst l).map (fun s => (s, l.count s)))

/-- Module constant `OUTBREAK_THRESHOLD = 10` (line 83). -/
def OUTBREAK_THRESHOLD : Nat := 10

/-- Module constant `OUTBREAK_DAYS = 7` (line 84). -/
def OUTBREAK_DAYS : Int := 7

/-- The `all_symptoms` accumulation loop of `analyze_trends` (236-239). -/
def collectSymptoms : List Record → List String
  | [] => []
  | r :: rs => splitSymptoms r.symptoms ++ collectSymptoms rs

/-- The inner 30-day loop of `analyze_trends` (lines 251-258): for each of
the last 30 days (oldest first), the number of records of the whole store
dated that day whose symptom string contains the symptom. -/
def dailyCounts (now : Int) (df : List Record) (symptom : String) : List Nat :=
  (List.range 30).map (fun i =>
    let check : Int := now.ediv 86400 - ((29 - i : Nat) : Int)
    (df.filter (fun r => r.date == check)).countP (fun r => symContains symptom r.symptoms))

/-- `analyze_trends` (lines 226-262): 7-day symptom frequency, 7-day age
distribution, and 30-day daily series for the top three symptoms. -/
def analyze_trends (now : Int) (df : List Record) :
    List (String × Nat) × List (String × Nat) × List (String × List Nat) :=
  if df.isEmpty then ([], [], []) else
    let recent_data := recentOf now 7 df
    let symptom_counts := value_counts (collectSymptoms recent_data)
    let age_distribution := value_counts (recent_data.map (fun r => r.age_group))
    let top_symptoms := (symptom_counts.take 3).map (fun p => p.1)
    let daily_trends := top_symptoms.map (fun s => (s, dailyCounts now df s))
    (symptom_counts, age_distribution, daily_trends)

/-- The per-area fever tally of `detect_outbreaks` (lines 275-280). -/
def areaFeverCases (recent : List Record) (a : String) : Nat :=
  (recent.filter (fun r => r.area == a)).countP (fun r => feverMatch r.symptoms)

/-- `detect_outbreaks` (lines 264-290): restrict to the last
`OUTBREAK_DAYS` days, then for each distinct area (first-seen order) emit a
signal when its fever tally reaches `OUTBREAK_THRESHOLD`. -/
def detect_outbreaks (now : Int) (df : List Record) : List Outbreak :=
  if df.isEmpty then [] else
    let recent_data := recentOf now OUTBREAK_DAYS df
    (dedupFirst (recent_data.map (fun r => r.area))).filterMap (fun a =>
      let fever_cases := areaFeverCases recent_data a
      if OUTBREAK_THRESHOLD ≤ fever_cases then
        some { area := a, cases := fever_cases, symptom := "Fever", days := OUTBREAK_DAYS }
      else none)

/-- `log_entry` (lines 206-224): append the row exactly as given — `area`
verbatim, `symptoms` comma-joined — and return `True` unconditionally. -/
def log_entry (store : List Record) (date : Int) (age_group area duration : String)
    (symptoms : List String) (severity : Int) (now : Int) : List Record × Bool :=
  (store ++ [{ date := date, age_group := age_group, area := area, duration := duration,
               symptoms := joinComma symptoms, severity := severity, timestamp := now }], true)

/-- Outcome of the `pd.read_csv` + date-parsing block inside `load_data`'s
`try` (lines 195-199): either the parsed rows, or any parse failure
(corrupt or missing file). -/
inductive ReadResult where
  | ok (rows : List Record)
  | parseFailure
  deriving DecidableEq

/-- A pandas DataFrame: its column set and its rows. -/
structure Frame where
  columns : List String
  rows : List Record
  deriving DecidableEq

/-- The fixed column set of `initialize_data_file` and of `load_data`'s
`except` branch (lines 188-190 and 202-204). -/
def STD_COLUMNS : List String :=
  ["date", "age_group", "area", "duration", "symptoms", "severity", "timestamp"]

/-- `load_data` (lines 193-204): return the parsed store, or on any parse
failure an empty frame with the standard columns instead of raising. -/
def load_data : ReadResult → Frame
  | .ok rows => { columns := STD_COLUMNS, rows := rows }
  | .parseFailure => { columns := STD_COLUMNS, rows := [] }

/-- What the submission branch of `main` reports back to the submitter. -/
inductive SubmitOutcome where
  | saved
  | saveError
  | validationWarning
  deriving DecidableEq

/-- The form-submission branch of `main` (lines 592-601): Python truthiness
check `if area and symptoms`, then `log_entry`, whose boolean return picks
the success or the save-error message; otherwise a validation warning and
no write. -/
def submit_handler (store : List Record) (date : Int) (age_group area duration : String)
    (symptoms : List String) (severity : Int) (now : Int) : List Record × SubmitOutcome :=
  if !(area == "") && !symptoms.isEmpty then
    let result := log_entry store date age_group area duration symptoms severity now
    if result.2 then (result.1, .saved) else (result.1, .saveError)
  else (store, .validationWarning)

/-- Raw field values of one form submission. -/
structure Submission where
  date : Int
  age_group : String
  area : String
  duration : String
  symptoms : List String
  severity : Int
  submittedAt : Int
  deriving DecidableEq

/-- A sequence of accepted writes through `log_entry`. -/
def writeAll (store : List Record) : List Submission → List Record
  | [] => store
  | s :: rest =>
      writeAll (log_entry store s.date s.age_group s.area s.duration
        s.symptoms s.severity s.submittedAt).1 rest

/-- The row `log_entry` produces from raw submission fields. -/
def rowOf (s : Submission) : Record :=
  { date := s.date, age_group := s.age_group, area := s.area, duration := s.duration,
    symptoms := joinComma s.symptoms, severity := s.severity, timestamp := s.submittedAt }

/-- Modelled from the spec: the write-time `area` normalization the spec
asserts (trim, then title-case) — absent from `src/Tracker.py`; used only
to compare the spec's described behaviour with the code's. -/
def isWS (c : Char) : Bool := c == ' ' || c == '\t' || c == '\n' || c == '\r'

/-- Modelled from the spec: trim whitespace from both ends. -/
def trimChars (l : List Char) : List Char :=
  ((l.dropWhile isWS).reverse.dropWhile isWS).reverse

/-- Modelled from the spec: title-casing — upper-case a letter starting a
run of letters, lower-case the rest (Python `str.title()`). -/
def titleChars : Bool → List Char → List Char
  | _, [] => []
  | prevCased, c :: cs =>
    (if c.isAlpha && !prevCased then c.toUpper
     else if c.isAlpha then c.toLower else c) :: titleChars c.isAlpha cs

/-- Modelled from the spec: the normalized form of a raw `area` value,
`trim + title-case` (spec §3 `area`, §4.2). -/
def spec_normalize_area (s : String) : String :=
  String.mk (titleChars false (trimChars s.toList))

/-- Modelled from the spec: `detectOutbreaks(records, threshold,
windowDays)` — the detector with threshold and window as caller-supplied
parameters, as §4.4 and §6 describe it; the code's `detect_outbreaks`
takes neither. -/
def spec_detectOutbreaks (now : Int) (threshold : Nat) (windowDays : Int)
    (df : List Record) : List Outbreak :=
  let recent_data := recentOf now windowDays df
  (dedupFirst (recent_data.map (fun r => r.area))).filterMap (fun a =>
    let fever_cases := areaFeverCases recent_data a
    if threshold ≤ fever_cases then
      some { area := a, cases := fever_cases, symptom := "Fever", days := windowDays }
    else none)

/-- Records of `df` inside the detector's window with area `a` whose
symptom string contains "fever" case-insensitively. -/
def feverCount (now : Int) (df : List Record) (a : String) : Nat :=
  (df.filter (fun r => inWindow now OUTBREAK_DAYS r && r.area == a
    && feverMatch r.symptoms)).length

/-- Position of the first occurrence of `x`, counting non-occurrences. -/
def firstPos (x : String) : List String → Nat
  | [] => 0
  | y :: ys => if y = x then 0 else firstPos x ys + 1

/-- A sample accepted record used as concrete test data. -/
def sampleRec (a sy : String) : Record :=
  { date := 0, age_group := "Adult (25-59)", area := a, duration := "1-3 days",
    symptoms := sy, severity := 5, timestamp := 0 }

theorem writeAll_eq (store : List Record) (subs : List Submission) :
    writeAll store subs = store ++ subs.map rowOf := by
  induction subs generalizing store with
  | nil => simp [writeAll]
  | cons s rest ih =>
      simp only [writeAll, log_entry, List.map_cons, ih, rowOf]
      simp

/-- C5: on an empty record sequence `analyze_trends` returns the empty
frequency mapping, empty age distribution and empty daily series, and
`detect_outbreaks` returns the empty collection; both are total functions,
so no error is possible. -/
theorem empty_input_degenerate (now : Int) :
    analyze_trends now [] = ([], [], []) ∧ detect_outbreaks now [] = [] :=
  ⟨rfl, rfl⟩

/-- C6: `load_data` maps any parse failure (corrupt or missing backing
file) to an empty frame carrying the standard column set — the same frame
it returns for a successfully parsed empty store — rather than raising, so
"no data" and "store unreadable" are indistinguishable to the caller. -/
theorem load_data_parse_failure_empty :
    load_data ReadResult.parseFailure = { columns := STD_COLUMNS, rows := [] } ∧
    load_data ReadResult.parseFailure = load_data (ReadResult.ok []) :=
  ⟨rfl, rfl⟩

/-- C10: `log_entry` returns `True` on every path, so the submission
handler's save-error branch (`st.error` at line 599) is unreachable: the
outcome is never `saveError`. -/
theorem log_entry_always_true (store : List Record) (date : Int)
    (age_group area duration : String) (symptoms : List String) (severity now : Int) :
    (log_entry store date age_group area duration symptoms severity now).2 = true ∧
    (submit_handler store date age_group area duration symptoms severity now).2 ≠
      SubmitOutcome.saveError := by
  refine ⟨rfl, ?_⟩
  unfold submit_handler
  split
  · simp [log_entry]
  · simp

/-- C2 counterexample: `log_entry` stores the `area` field verbatim — the
raw value `" koramangala "` is appended unchanged, while the trim +
title-case normalization the claim asserts would have produced
`"Koramangala"`. -/
theorem area_written_verbatim_counterexample :
    ((log_entry [] 0 "Adult (25-59)" " koramangala " "1-3 days" ["Fever"] 5 0).1.map
      (fun r => r.area)) = [" koramangala "] ∧
    spec_normalize_area " koramangala " = "Koramangala" ∧
    (" koramangala " : String) ≠ "Koramangala" := by
  refine ⟨rfl, by decide, by decide⟩

/-- C2 amended: the `area` field is not normalized at write time — it is
appended verbatim; writing N valid records and then reloading yields N
records whose `area` equals the raw input and whose `symptoms` equal the
comma-joined raw symptom list. -/
theorem round_trip_verbatim (subs : List Submission) :
    (load_data (ReadResult.ok (writeAll [] subs))).rows.length = subs.length ∧
    (load_data (ReadResult.ok (writeAll [] subs))).rows.map (fun r => r.area) =
      subs.map (fun s => s.area) ∧
    (load_data (ReadResult.ok (writeAll [] subs))).rows.map (fun r => r.symptoms) =
      subs.map (fun s => joinComma s.symptoms) := by
  simp [load_data, writeAll_eq, rowOf]

/-- C3 counterexample: a submission whose `area` is the single blank
`" "` — empty after trimming — is accepted and written, because the check
is Python truthiness of the untrimmed string. -/
theorem accepts_whitespace_area :
    (submit_handler [] 0 "Adult (25-59)" " " "1-3 days" ["Fever"] 5 0).2 =
      SubmitOutcome.saved ∧
    trimChars (" " : String).toList = [] ∧
    (submit_handler [] 0 "Adult (25-59)" " " "1-3 days" ["Fever"] 5 0).1 ≠ [] := by
  refine ⟨rfl, by decide, by decide⟩

/-- C3 amended: a submission is accepted iff its `area` string is
non-empty as given (no trimming) and its symptom list is non-empty; a
rejected submission performs no write, leaving the store unchanged. -/
theorem submit_accept_iff (store : List Record) (date : Int)
    (age_group area duration : String) (symptoms : List String) (severity now : Int) :
    ((submit_handler store date age_group area duration symptoms severity now).2 =
        SubmitOutcome.saved ↔ (area ≠ "" ∧ symptoms ≠ [])) ∧
    ((submit_handler store date age_group area duration symptoms severity now).2 ≠
        SubmitOutcome.saved →
      (submit_handler store date age_group area duration symptoms severity now).1 = store) := by
  by_cases h : area ≠ "" ∧ symptoms ≠ []
  · have h1 : (area == "") = false := beq_eq_false_iff_ne.mpr h.1
    have h2 : symptoms.isEmpty = false := by
      cases symptoms with
      | nil => exact absurd rfl h.2
      | cons a l => rfl
    have hb : (!(area == "") && !symptoms.isEmpty) = true := by rw [h1, h2]; rfl
    have heq : submit_handler store date age_group area duration symptoms severity now =
        ((log_entry store date age_group area duration symptoms severity now).1,
          SubmitOutcome.saved) := by
      unfold submit_handler
      rw [if_pos hb]
      rfl
    rw [heq]
    exact ⟨⟨fun _ => h, fun _ => rfl⟩, fun hne => absurd rfl hne⟩
  · have hb : (!(area == "") && !symptoms.isEmpty) = false := by
      rcases not_and_or.mp h with h1 | h1
      · have e : area = "" := not_not.mp h1
        simp [e]
      · have e : symptoms = [] := not_not.mp h1
        simp [e]
    have heq : submit_handler store date age_group area duration symptoms severity now =
        (store, SubmitOutcome.validationWarning) := by
      unfold submit_handler
      rw [if_neg (by simp [hb])]
    rw [heq]
    exact ⟨⟨fun e => SubmitOutcome.noConfusion e, fun hh => absurd hh h⟩, fun _ => rfl⟩

/-- C3 amended, witness: the empty-area rejection at a concrete input
leaves the store unchanged. -/
theorem submit_accept_iff_witness :
    (submit_handler [] 0 "Adult (25-59)" "" "1-3 days" [] 5 0).1 = [] :=
  (submit_accept_iff [] 0 "Adult (25-59)" "" "1-3 days" [] 5 0).2 (by decide)

/-- C7: `detect_outbreaks` takes only the record sequence — the UI's
configured threshold and window (lines 726-737) are never passed in — so
with the configured threshold 5 a six-case fever cluster produces no
signal, while the spec's parameterized `detectOutbreaks(records, 5, 7)`
produces one. -/
theorem detect_outbreaks_ignores_config :
    detect_outbreaks 0 (List.replicate 6 (sampleRec "Koramangala" "Fever")) = [] ∧
    spec_detectOutbreaks 0 5 7 (List.replicate 6 (sampleRec "Koramangala" "Fever")) =
      [{ area := "Koramangala", cases := 6, symptom := "Fever", days := 7 }] := by
  refine ⟨by decide, by decide⟩

theorem mem_dedupFirstAux {x : String} {l : List String} :
    ∀ {seen : List String}, x ∈ dedupFirstAux seen l ↔ x ∈ l ∧ x ∉ seen := by
  induction l with
  | nil => intro seen; simp [dedupFirstAux]
  | cons y ys ih =>
    intro seen
    rw [dedupFirstAux]
    split
    · rename_i hy
      rw [ih]
      constructor
      · exact fun ⟨hx, hs⟩ => ⟨List.mem_cons_of_mem _ hx, hs⟩
      · rintro ⟨hx, hs⟩
        rcases List.mem_cons.mp hx with e | hx
        · exact absurd (e ▸ hy) hs
        · exact ⟨hx, hs⟩
    · rename_i hy
      simp only [List.mem_cons, ih]
      constructor
      · rintro (e | ⟨hx, hs⟩)
        · subst e
          exact ⟨Or.inl rfl, hy⟩
        · exact ⟨Or.inr hx, fun hm => hs (Or.inr hm)⟩
      · rintro ⟨e | hx, hs⟩
        · exact Or.inl e
        · by_cases exy : x = y
          · exact Or.inl exy
          · refine Or.inr ⟨hx, fun hm => ?_⟩
            rcases hm with e | hm
            · exact exy e
            · exact hs hm

theorem mem_dedupFirst {x : String} {l : List String} : x ∈ dedupFirst l ↔ x ∈ l := by
  unfold dedupFirst
  rw [mem_dedupFirstAux]
  simp

theorem nodup_dedupFirstAux (l : List String) :
    ∀ (seen : List String), (dedupFirstAux seen l).Nodup := by
  induction l with
  | nil => intro seen; simp [dedupFirstAux]
  | cons y ys ih =>
    intro seen
    rw [dedupFirstAux]
    split
    · exact ih seen
    · refine List.nodup_cons.mpr ⟨?_, ih (y :: seen)⟩
      intro hmem
      exact (mem_dedupFirstAux.mp hmem).2 (List.mem_cons_self _ _)

theorem nodup_dedupFirst (l : List String) : (dedupFirst l).Nodup :=
  nodup_dedupFirstAux l []

theorem areaFeverCases_recentOf (now : Int) (df : List Record) (a : String) :
    areaFeverCases (recentOf now OUTBREAK_DAYS df) a = feverCount now df a := by
  unfold areaFeverCases recentOf feverCount
  rw [List.countP_eq_length_filter, List.filter_filter, List.filter_filter]
  congr 1
  refine List.filter_congr ?_
  intro r _
  cases inWindow now OUTBREAK_DAYS r <;> cases r.area == a <;>
    cases feverMatch r.symptoms <;> rfl

theorem feverCount_pos_mem {now : Int} {df : List Record} {a : String}
    (h : feverCount now df a ≠ 0) :
    a ∈ (recentOf now OUTBREAK_DAYS df).map (fun r => r.area) := by
  unfold feverCount at h
  have hne : df.filter (fun r => inWindow now OUTBREAK_DAYS r && r.area == a
      && feverMatch r.symptoms) ≠ [] := by
    intro e
    rw [e] at h
    exact h rfl
  obtain ⟨r, hr⟩ := List.exists_mem_of_ne_nil _ hne
  obtain ⟨hdf, hp⟩ := List.mem_filter.mp hr
  rw [Bool.and_eq_true, Bool.and_eq_true] at hp
  obtain ⟨⟨hw, ha⟩, _⟩ := hp
  refine List.mem_map.mpr ⟨r, ?_, beq_iff_eq.mp ha⟩
  exact List.mem_filter.mpr ⟨hdf, hw⟩

/-- The body of the per-area loop of `detect_outbreaks` (lines 275-288),
as a function of one area. -/
def outbreakRule (recent : List Record) (a : String) : Option Outbreak :=
  if OUTBREAK_THRESHOLD ≤ areaFeverCases recent a then
    some { area := a, cases := areaFeverCases recent a, symptom := "Fever",
           days := OUTBREAK_DAYS }
  else none

theorem outbreakRule_area (recent : List Record) (a : String) (x : Outbreak)
    (hx : outbreakRule recent a = some x) : x.area = a := by
  unfold outbreakRule at hx
  split at hx
  · cases hx
    rfl
  · cases hx

theorem detect_outbreaks_eq (now : Int) (df : List Record) :
    detect_outbreaks now df =
      (dedupFirst ((recentOf now OUTBREAK_DAYS df).map (fun r => r.area))).filterMap
        (outbreakRule (recentOf now OUTBREAK_DAYS df)) := by
  cases hdf : df.isEmpty with
  | true =>
    have hnil : df = [] := List.isEmpty_iff.mp hdf
    subst hnil
    rfl
  | false =>
    unfold detect_outbreaks
    rw [if_neg (by simp [hdf])]
    rfl

theorem analyze_trends_fst (now : Int) (df : List Record) :
    (analyze_trends now df).1 = value_counts (collectSymptoms (recentOf now 7 df)) := by
  cases hdf : df.isEmpty with
  | true =>
    have hnil : df = [] := List.isEmpty_iff.mp hdf
    subst hnil
    rfl
  | false =>
    unfold analyze_trends
    rw [if_neg (by simp [hdf])]

theorem filterMap_filter_not_mem (g : String → Option Outbreak)
    (hg : ∀ a x, g a = some x → x.area = a) (A : String) :
    ∀ ks : List String, A ∉ ks →
      (ks.filterMap g).filter (fun o => o.area == A) = [] := by
  intro ks
  induction ks with
  | nil => intro _; rfl
  | cons k ks ih =>
    intro hA
    have hk : k ≠ A := fun e => hA (e ▸ List.mem_cons_self k ks)
    have hA' : A ∉ ks := fun hm => hA (List.mem_cons_of_mem _ hm)
    rw [List.filterMap_cons]
    cases hgk : g k with
    | none => exact ih hA'
    | some x =>
      have hfalse : (x.area == A) = false :=
        beq_eq_false_iff_ne.mpr (by rw [hg k x hgk]; exact hk)
      simp only [List.filter_cons, hfalse, Bool.false_eq_true, if_false]
      exact ih hA'

theorem filterMap_filter_mem (g : String → Option Outbreak)
    (hg : ∀ a x, g a = some x → x.area = a) (A : String) :
    ∀ ks : List String, ks.Nodup → A ∈ ks →
      (ks.filterMap g).filter (fun o => o.area == A) = (g A).toList := by
  intro ks
  induction ks with
  | nil => intro _ hA; cases hA
  | cons k ks ih =>
    intro hnd hA
    have hk : k ∉ ks := (List.nodup_cons.mp hnd).1
    rw [List.filterMap_cons]
    by_cases e : k = A
    · subst e
      cases hgk : g k with
      | none => exact filterMap_filter_not_mem g hg k ks hk
      | some x =>
        have htrue : (x.area == k) = true := beq_iff_eq.mpr (hg k x hgk)
        simp only [List.filter_cons, htrue, if_true]
        rw [filterMap_filter_not_mem g hg k ks hk]
        rfl
    · have hA' : A ∈ ks := (List.mem_cons.mp hA).resolve_left fun h => e h.symm
      cases hgk : g k with
      | none => exact ih (List.nodup_cons.mp hnd).2 hA'
      | some x =>
        have hfalse : (x.area == A) = false :=
          beq_eq_false_iff_ne.mpr (by rw [hg k x hgk]; exact e)
        simp only [List.filter_cons, hfalse, Bool.false_eq_true, if_false]
        exact ih (List.nodup_cons.mp hnd).2 hA'

theorem map_area_filterMap_sublist (g : String → Option Outbreak)
    (hg : ∀ a x, g a = some x → x.area = a) :
    ∀ ks : List String, ((ks.filterMap g).map (fun o => o.area)).Sublist ks := by
  intro ks
  induction ks with
  | nil => simp
  | cons k ks ih =>
    rw [List.filterMap_cons]
    cases hgk : g k with
    | none => exact ih.cons k
    | some x =>
      rw [List.map_cons, hg k x hgk]
      exact ih.cons₂ k

/-- C1: with the threshold at its default 10 and the 7-day window, an area
with exactly 9 in-window fever-matching records yields no Outbreak signal
for that area, and exactly 10 yields exactly one signal for that area,
with case count 10. -/
theorem outbreak_threshold_boundary (now : Int) (df : List Record) (a : String) :
    (feverCount now df a = 9 →
      (detect_outbreaks now df).filter (fun o => o.area == a) = []) ∧
    (feverCount now df a = 10 →
      (detect_outbreaks now df).filter (fun o => o.area == a) =
        [{ area := a, cases := 10, symptom := "Fever", days := OUTBREAK_DAYS }]) := by
  cases hdf : df.isEmpty with
  | true =>
    have hnil : df = [] := List.isEmpty_iff.mp hdf
    subst hnil
    constructor
    · intro _
      rfl
    · intro h10
      exact absurd h10 (by simp [feverCount])
  | false =>
    have hdet := detect_outbreaks_eq now df
    have hg := outbreakRule_area (recentOf now OUTBREAK_DAYS df)
    have hcnt := areaFeverCases_recentOf now df a
    constructor
    · intro h9
      rw [hdet]
      by_cases hmem : a ∈ dedupFirst ((recentOf now OUTBREAK_DAYS df).map (fun r => r.area))
      · rw [filterMap_filter_mem _ hg a _ (nodup_dedupFirst _) hmem]
        unfold outbreakRule
        rw [if_neg (by rw [hcnt, h9]; decide)]
        rfl
      · exact filterMap_filter_not_mem _ hg a _ hmem
    · intro h10
      have hpos : feverCount now df a ≠ 0 := by
        rw [h10]
        decide
      have hmem : a ∈ dedupFirst ((recentOf now OUTBREAK_DAYS df).map (fun r => r.area)) :=
        mem_dedupFirst.mpr (feverCount_pos_mem hpos)
      rw [hdet, filterMap_filter_mem _ hg a _ (nodup_dedupFirst _) hmem]
      unfold outbreakRule
      rw [hcnt, h10, if_pos (by decide)]
      rfl

/-- C1 witness: nine identical in-window fever records in area "A" give no
signal; ten give exactly the one signal with case count 10. -/
theorem outbreak_threshold_boundary_witness :
    (detect_outbreaks 0 (List.replicate 9 (sampleRec "A" "Fever"))).filter
        (fun o => o.area == "A") = [] ∧
    (detect_outbreaks 0 (List.replicate 10 (sampleRec "A" "Fever"))).filter
        (fun o => o.area == "A") =
      [{ area := "A", cases := 10, symptom := "Fever", days := OUTBREAK_DAYS }] :=
  ⟨(outbreak_threshold_boundary 0 (List.replicate 9 (sampleRec "A" "Fever")) "A").1
      (by decide),
   (outbreak_threshold_boundary 0 (List.replicate 10 (sampleRec "A" "Fever")) "A").2
      (by decide)⟩

/-- C9: `detect_outbreaks` emits at most one signal per distinct area, and
every emitted signal has case count at least the threshold, symptom
"Fever", and days equal to the window length. -/
theorem outbreak_signal_invariants (now : Int) (df : List Record) :
    ((detect_outbreaks now df).map (fun o => o.area)).Nodup ∧
    ∀ o ∈ detect_outbreaks now df,
      OUTBREAK_THRESHOLD ≤ o.cases ∧ o.symptom = "Fever" ∧ o.days = OUTBREAK_DAYS := by
  cases hdf : df.isEmpty with
  | true =>
    have hnil : df = [] := List.isEmpty_iff.mp hdf
    subst hnil
    refine ⟨List.nodup_nil, ?_⟩
    intro o ho
    cases ho
  | false =>
    rw [detect_outbreaks_eq now df]
    have hg := outbreakRule_area (recentOf now OUTBREAK_DAYS df)
    constructor
    · exact (map_area_filterMap_sublist _ hg _).nodup (nodup_dedupFirst _)
    · intro o ho
      obtain ⟨a, _, hga⟩ := List.mem_filterMap.mp ho
      unfold outbreakRule at hga
      split at hga
      · rename_i hth
        cases hga
        exact ⟨hth, rfl, rfl⟩
      · cases hga

/-- C9 witness: the invariants applied to a concrete ten-record fever
cluster, and the emitted signal's fields checked at that input. -/
theorem outbreak_signal_invariants_witness :
    ((detect_outbreaks 0 (List.replicate 10 (sampleRec "A" "Fever"))).map
        (fun o => o.area)).Nodup ∧
    (OUTBREAK_THRESHOLD ≤ (Outbreak.mk "A" 10 "Fever" OUTBREAK_DAYS).cases ∧
      (Outbreak.mk "A" 10 "Fever" OUTBREAK_DAYS).symptom = "Fever" ∧
      (Outbreak.mk "A" 10 "Fever" OUTBREAK_DAYS).days = OUTBREAK_DAYS) :=
  ⟨(outbreak_signal_invariants 0 (List.replicate 10 (sampleRec "A" "Fever"))).1,
   (outbreak_signal_invariants 0 (List.replicate 10 (sampleRec "A" "Fever"))).2
      (Outbreak.mk "A" 10 "Fever" OUTBREAK_DAYS) (by decide)⟩

/-- C4: a record whose date is older than `now - windowDays` by at least
one day (86400 seconds) is dropped by the shared window filter, so its
presence changes neither the symptom-frequency output of `analyze_trends`
nor the output of `detect_outbreaks` (both functions use the 7-day window
`OUTBREAK_DAYS = 7`). -/
theorem window_exclusion (now : Int) (r : Record) (df1 df2 : List Record)
    (h : r.date * 86400 + 86400 ≤ now - 7 * 86400) :
    (analyze_trends now (df1 ++ r :: df2)).1 = (analyze_trends now (df1 ++ df2)).1 ∧
    detect_outbreaks now (df1 ++ r :: df2) = detect_outbreaks now (df1 ++ df2) := by
  have hW7 : inWindow now 7 r = false := by
    unfold inWindow
    simp only [decide_eq_false_iff_not, not_le]
    omega
  have hrec : ∀ days : Int, inWindow now days r = false →
      recentOf now days (df1 ++ r :: df2) = recentOf now days (df1 ++ df2) := by
    intro days hw
    unfold recentOf
    rw [List.filter_append, List.filter_append, List.filter_cons, hw]
    simp
  constructor
  · rw [analyze_trends_fst, analyze_trends_fst, hrec 7 hW7]
  · rw [detect_outbreaks_eq, detect_outbreaks_eq, hrec OUTBREAK_DAYS hW7]

/-- C4 witness: with `now` at day 8, a record dated day 0 (eight days old,
one day beyond the 7-day window) contributes to neither output. -/
theorem window_exclusion_witness :
    (analyze_trends (8 * 86400) ([] ++ sampleRec "A" "Fever" :: [])).1 =
      (analyze_trends (8 * 86400) ([] ++ [])).1 ∧
    detect_outbreaks (8 * 86400) ([] ++ sampleRec "A" "Fever" :: []) =
      detect_outbreaks (8 * 86400) ([] ++ []) :=
  window_exclusion (8 * 86400) (sampleRec "A" "Fever") [] [] (by decide)

theorem mem_insertDesc {p x : String × Nat} :
    ∀ {l : List (String × Nat)}, x ∈ insertDesc p l → x = p ∨ x ∈ l := by
  intro l
  induction l with
  | nil =>
    intro h
    rw [insertDesc] at h
    exact Or.inl (List.mem_singleton.mp h)
  | cons q qs ih =>
    intro h
    rw [insertDesc] at h
    split at h
    · rcases List.mem_cons.mp h with e | hm
      · exact Or.inl e
      · exact Or.inr hm
    · rcases List.mem_cons.mp h with e | hm
      · exact Or.inr (e ▸ List.mem_cons_self q qs)
      · rcases ih hm with e | hm'
        · exact Or.inl e
        · exact Or.inr (List.mem_cons_of_mem _ hm')

theorem mem_sortDesc {x : String × Nat} :
    ∀ {l : List (String × Nat)}, x ∈ sortDesc l → x ∈ l := by
  intro l
  induction l with
  | nil =>
    intro h
    cases h
  | cons q qs ih =>
    intro h
    rw [sortDesc, List.foldr_cons] at h
    rcases mem_insertDesc h with e | hm
    · exact e ▸ List.mem_cons_self q qs
    · exact List.mem_cons_of_mem _ (ih hm)

theorem pairwise_insertDesc (f : String → Nat) (p : String × Nat) :
    ∀ l : List (String × Nat),
      l.Pairwise (fun a b => b.2 < a.2 ∨ (a.2 = b.2 ∧ f a.1 < f b.1)) →
      (∀ q ∈ l, f p.1 < f q.1) →
      (insertDesc p l).Pairwise (fun a b => b.2 < a.2 ∨ (a.2 = b.2 ∧ f a.1 < f b.1)) := by
  intro l
  induction l with
  | nil =>
    intro _ _
    rw [insertDesc]
    exact List.pairwise_singleton _ _
  | cons q qs ih =>
    intro hl hp
    have hql := List.pairwise_cons.mp hl
    rw [insertDesc]
    split
    · rename_i hle
      refine List.Pairwise.cons ?_ hl
      intro x hx
      have hx2 : x.2 ≤ q.2 := by
        rcases List.mem_cons.mp hx with e | hm
        · exact e ▸ Nat.le_refl _
        · rcases hql.1 x hm with hlt | ⟨heq, _⟩
          · exact Nat.le_of_lt hlt
          · exact Nat.le_of_eq heq.symm
      rcases Nat.lt_or_ge x.2 p.2 with hlt | hge
      · exact Or.inl hlt
      · exact Or.inr ⟨Nat.le_antisymm hge (Nat.le_trans hx2 hle), hp x hx⟩
    · rename_i hgt
      refine List.Pairwise.cons ?_
        (ih hql.2 (fun q' hq' => hp q' (List.mem_cons_of_mem _ hq')))
      intro x hx
      rcases mem_insertDesc hx with e | hm
      · subst e
        exact Or.inl (Nat.lt_of_not_le hgt)
      · exact hql.1 x hm

theorem pairwise_sortDesc (f : String → Nat) :
    ∀ l : List (String × Nat),
      l.Pairwise (fun a b => f a.1 < f b.1) →
      (sortDesc l).Pairwise (fun a b => b.2 < a.2 ∨ (a.2 = b.2 ∧ f a.1 < f b.1)) := by
  intro l
  induction l with
  | nil =>
    intro _
    exact List.Pairwise.nil
  | cons q qs ih =>
    intro hl
    have hq := List.pairwise_cons.mp hl
    rw [sortDesc, List.foldr_cons]
    refine pairwise_insertDesc f q _ (ih hq.2) ?_
    intro x hx
    exact hq.1 x (mem_sortDesc hx)

theorem pairwise_firstPos_dedupFirstAux (l : List String) :
    ∀ seen : List String,
      (dedupFirstAux seen l).Pairwise (fun a b => firstPos a l < firstPos b l) := by
  induction l with
  | nil =>
    intro seen
    exact List.Pairwise.nil
  | cons y ys ih =>
    intro seen
    rw [dedupFirstAux]
    split
    · rename_i hy
      refine (ih seen).imp_of_mem ?_
      intro a b ha hb hab
      have hane : y ≠ a := fun e => (mem_dedupFirstAux.mp ha).2 (e ▸ hy)
      have hbne : y ≠ b := fun e => (mem_dedupFirstAux.mp hb).2 (e ▸ hy)
      simp only [firstPos]
      rw [if_neg hane, if_neg hbne]
      exact Nat.succ_lt_succ hab
    · rename_i hy
      refine List.Pairwise.cons ?_ ?_
      · intro b hb
        have hbne : y ≠ b := fun e =>
          (mem_dedupFirstAux.mp hb).2 (by rw [← e]; exact List.mem_cons_self y seen)
        simp only [firstPos]
        rw [if_pos trivial, if_neg hbne]
        exact Nat.succ_pos _
      · refine (ih (y :: seen)).imp_of_mem ?_
        intro a b ha hb hab
        have hane : y ≠ a := fun e =>
          (mem_dedupFirstAux.mp ha).2 (by rw [← e]; exact List.mem_cons_self y seen)
        have hbne : y ≠ b := fun e =>
          (mem_dedupFirstAux.mp hb).2 (by rw [← e]; exact List.mem_cons_self y seen)
        simp only [firstPos]
        rw [if_neg hane, if_neg hbne]
        exact Nat.succ_lt_succ hab

theorem pairwise_firstPos_dedupFirst (l : List String) :
    (dedupFirst l).Pairwise (fun a b => firstPos a l < firstPos b l) :=
  pairwise_firstPos_dedupFirstAux l []

/-- C8: the symptom-frequency output of `analyze_trends` is ordered
descending by count; any later entry has a strictly smaller count, or an
equal count and a strictly later first occurrence in the scan over the
in-window records (`collectSymptoms` of the filtered rows, which is the
exact scan order of the source loop). -/
theorem symptom_frequency_sorted (now : Int) (df : List Record) :
    ((analyze_trends now df).1).Pairwise (fun p q =>
      q.2 < p.2 ∨ (p.2 = q.2 ∧
        firstPos p.1 (collectSymptoms (recentOf now 7 df)) <
          firstPos q.1 (collectSymptoms (recentOf now 7 df)))) := by
  rw [analyze_trends_fst]
  unfold value_counts
  refine pairwise_sortDesc
    (fun s => firstPos s (collectSymptoms (recentOf now 7 df))) _ ?_
  rw [List.pairwise_map]
  exact pairwise_firstPos_dedupFirst _

end Tracker
